import Mathlib

/-!
Verification development for the geo-redirect engine of
`hmilkovi/caddy-geo-redirect`.

The Go source is shallowly embedded:

* `float64` values become real numbers (`ℝ`); `math.Sin`, `math.Cos`,
  `math.Sqrt`, `math.Atan2` become their Mathlib counterparts (`atan2`
  is defined below following Go's `math.Atan2` sign conventions for
  finite arguments).
* `uint64` counters (`atomic.Uint64`) are naturals reduced modulo `2^64`;
  Go's `int(uint64)` conversion is `intOfUInt64`.
* Timestamps (`time.Time`, `time.Since(...).Seconds()`) are rationals.
* The concurrent maps (`sync.Map`, Go `map`) become association lists;
  `lookupKey` is `Load` / map indexing and `storeAssoc` is `Store`.
  List order models the (otherwise arbitrary) iteration order of one pass.
* External effects (the mmdb database, DNS resolution, health-check HTTP
  requests) are oracles passed as function arguments.
* Pointer-valued maps (`map[string]*DomainGeoLocation`) are modelled with
  an explicit heap: `RegistryState.heap` holds the pointed-to values and
  the map stores indices into the heap, so that in-place mutation through
  a shared pointer is observable.
-/

/-- `GeoLocation` from the source: a latitude/longitude pair (float64). -/
structure GeoLocation where
  lat : ℝ
  long : ℝ

/-- `DomainGeoLocation` from the source: an embedded `GeoLocation`
plus the `IsAlive` flag. -/
structure DomainGeoLocation where
  loc : GeoLocation
  isAlive : Bool

/-- `GeoCacheEntry` from the source: the decision-cache value type. -/
structure GeoCacheEntry where
  domain : String
  ttlSec : ℤ
  insertTime : ℚ

/-- The record decoded by `geoip2.Reader.City`: whether the lookup found
data (`HasData`) and the latitude/longitude fields used by the engine. -/
structure CityRecord where
  hasData : Bool
  lat : ℝ
  long : ℝ

/-- Association-list lookup, modelling `sync.Map.Load` / Go map indexing. -/
def lookupKey {α : Type} (k : String) : List (String × α) → Option α
  | [] => none
  | p :: rest => if p.1 = k then some p.2 else lookupKey k rest

/-- Association-list store, modelling `sync.Map.Store`: overwrite the
existing entry for the key, or add a fresh entry. -/
def storeAssoc {α : Type} (cache : List (String × α)) (k : String) (v : α) :
    List (String × α) :=
  match lookupKey k cache with
  | some _ => cache.map (fun p => if p.1 = k then (k, v) else p)
  | none => (k, v) :: cache

/-- Go's `int(u)` conversion of a `uint64` value (represented as a natural
number): reinterpret the low 64 bits as a signed two's-complement int64. -/
def intOfUInt64 (n : ℕ) : ℤ :=
  if n % 2 ^ 64 < 2 ^ 63 then ((n % 2 ^ 64 : ℕ) : ℤ)
  else ((n % 2 ^ 64 : ℕ) : ℤ) - 2 ^ 64

/-- Go's `math.Atan2` for finite arguments: the angle of the point
`(x, y)`, in `(-π, π]`, with `atan2 0 0 = 0`. -/
noncomputable def atan2 (y x : ℝ) : ℝ :=
  if 0 < x then Real.arctan (y / x)
  else if x < 0 ∧ 0 ≤ y then Real.arctan (y / x) + Real.pi
  else if x < 0 ∧ y < 0 then Real.arctan (y / x) - Real.pi
  else if x = 0 ∧ 0 < y then Real.pi / 2
  else if x = 0 ∧ y < 0 then -(Real.pi / 2)
  else 0

/-- `HaversineDistance` from `geoip_math.go`: convert both coordinate
pairs from degrees to radians, apply the haversine formula, and scale by
the Earth's mean radius 6371.0 km. -/
noncomputable def HaversineDistance (lat1 lon1 lat2 lon2 : ℝ) : ℝ :=
  let lat1Rad := lat1 * Real.pi / 180
  let lon1Rad := lon1 * Real.pi / 180
  let lat2Rad := lat2 * Real.pi / 180
  let lon2Rad := lon2 * Real.pi / 180
  let diffLat := lat2Rad - lat1Rad
  let diffLon := lon2Rad - lon1Rad
  let a := Real.sin (diffLat / 2) ^ 2 +
    Real.cos lat1Rad * Real.cos lat2Rad * Real.sin (diffLon / 2) ^ 2
  let c := 2 * atan2 (Real.sqrt a) (Real.sqrt (1 - a))
  6371.0 * c

/-- `math.MaxFloat64`, the initial value of `minDistance` in the
selection loop: `(2 - 2^-52) * 2^1023`. -/
noncomputable def maxFloat64 : ℝ := 2 ^ 1024 - 2 ^ 971

/-- The distance computed inside the selection loop for one host entry:
`HaversineDistance(clientLat, clientLong, hostLat, hostLong)`. -/
noncomputable def distTo (client : GeoLocation) (g : DomainGeoLocation) : ℝ :=
  HaversineDistance client.lat client.long g.loc.lat g.loc.long

/-- Errors returned by `getIPLatLong` (`geoip.go`): a wrapped decode
failure from the mmdb reader (`failed ip lookup: ...`) or the NotFound
case (`no data found for this IP: ...`). -/
inductive LookupErr where
  | decodeFailed (msg : String)
  | notFound (ip : String)
deriving DecidableEq

/-- `getIPLatLong` from `src/geoip/geoip.go`: look the address up in the
mmdb database (the `db` oracle stands for `g.database.City`), wrap a
reader error, return NotFound when the record has no data, and otherwise
return the latitude/longitude of the record. -/
def getIPLatLong (db : String → Except String CityRecord) (ip : String) :
    Except LookupErr GeoLocation :=
  match db ip with
  | .error e => .error (.decodeFailed e)
  | .ok record =>
    if record.hasData then .ok ⟨record.lat, record.long⟩
    else .error (.notFound ip)

/-- Errors returned by `GetDomainWithSmallestGeoDistance`, with the data
interpolated into the corresponding `fmt.Errorf` message as payload:
`cache ttl can't be lower then 10 seconds: %d`,
`failed to get client location: %w`, and
`all %d domains seem to be down`. -/
inductive GeoErr where
  | ttlTooLow (ttl : ℤ)
  | clientLocationFailed (e : LookupErr)
  | allDomainsDown (count : ℕ)
deriving DecidableEq

/-- The mutable fields of `GeoIpDatabase` relevant to selection and the
decision cache: the `sync.Map` decision cache, the `CacheLen` atomic
counter (a uint64 value), `maxCacheSize` (a Go int), and the
`domainLocations` map whose pointer values may be nil (`Option`). -/
structure GeoState where
  cache : List (String × GeoCacheEntry)
  cacheLen : ℕ
  maxCacheSize : ℤ
  domainLocations : List (String × Option DomainGeoLocation)

/-- The selection loop of `GetDomainWithSmallestGeoDistance`, with
accumulator `(bestDomain, minDistance)`: skip nil entries, skip entries
not marked alive, compute the haversine distance, and update the
accumulator on a strict improvement (so the first-seen entry wins ties). -/
noncomputable def selectLoop (client : GeoLocation) :
    List (String × Option DomainGeoLocation) → String × ℝ → String × ℝ
  | [], acc => acc
  | p :: rest, acc =>
    match p.2 with
    | none => selectLoop client rest acc
    | some hostLocation =>
      if hostLocation.isAlive then
        if distTo client hostLocation < acc.2 then
          selectLoop client rest (p.1, distTo client hostLocation)
        else
          selectLoop client rest acc
      else
        selectLoop client rest acc

/-- `GetDomainWithSmallestGeoDistance` from the source (part_004):
reject TTLs below 10; return a cached decision immediately; geo-locate
the client (wrapping failures); scan the domain-location map for the
alive domain at the smallest haversine distance; fail with the
all-domains-down error when none was found; store the winner in the
decision cache only when `int(CacheLen) <= maxCacheSize`; return the
winner. `now` is the insertion timestamp (`time.Now().UTC()`). -/
noncomputable def GetDomainWithSmallestGeoDistance (st : GeoState)
    (db : String → Except String CityRecord) (clientIp : String)
    (cacheTTLSec : ℤ) (now : ℚ) : Except GeoErr String × GeoState :=
  if cacheTTLSec < 10 then
    (.error (.ttlTooLow cacheTTLSec), st)
  else
    match lookupKey clientIp st.cache with
    | some inCache => (.ok inCache.domain, st)
    | none =>
      match getIPLatLong db clientIp with
      | .error e => (.error (.clientLocationFailed e), st)
      | .ok clientLocation =>
        let best := selectLoop clientLocation st.domainLocations ("", maxFloat64)
        if best.1 = "" then
          (.error (.allDomainsDown st.domainLocations.length), st)
        else if intOfUInt64 st.cacheLen ≤ st.maxCacheSize then
          (.ok best.1,
            { st with
              cacheLen := (st.cacheLen + 1) % 2 ^ 64,
              cache := storeAssoc st.cache clientIp
                ⟨best.1, cacheTTLSec, now⟩ })
        else
          (.ok best.1, st)

/-- Whether a decision-cache entry is expired at time `now`:
`time.Since(entry.InsertTime).Seconds() > float64(entry.TTLSec)`. -/
def expiredEntry (now : ℚ) (ttlSec : ℤ) (insertTime : ℚ) : Bool :=
  decide ((ttlSec : ℚ) < now - insertTime)

/-- One pass of the decision-cache sweep started by `StartCacheCleanup`:
delete every expired entry and decrement `CacheLen` once per deletion
(`CacheLen.Add(^uint64(0))`, i.e. adding `2^64 - 1` modulo `2^64`). -/
def sweepCache (st : GeoState) (now : ℚ) : GeoState :=
  { st with
    cache := st.cache.filter (fun p => !(expiredEntry now p.2.ttlSec p.2.insertTime)),
    cacheLen := (st.cacheLen + (2 ^ 64 - 1) *
      (st.cache.filter (fun p => expiredEntry now p.2.ttlSec p.2.insertTime)).length) % 2 ^ 64 }

/-- `DnsCacheEntry` from the source: resolved addresses, insertion time,
and TTL. Addresses are modelled as strings. -/
structure DnsCacheEntry where
  ips : List String
  insertTime : ℚ
  ttlSec : ℤ
deriving DecidableEq

/-- The state of `DnsResolver`: its `sync.Map` cache. -/
structure DnsResolver where
  cache : List (String × DnsCacheEntry)
deriving DecidableEq

/-- Errors returned by `DnsResolver.Resolve`: the TTL validation error
(`ttl can not be smaller then 10: %d`), a DNS resolution failure, the
`no IPs found for: %s` error, and the index-out-of-range panic that Go
would raise on a cached entry with no addresses (unreachable for entries
stored by `Resolve`). -/
inductive DnsErr where
  | ttlTooLow (ttl : ℤ)
  | lookupFailed (msg : String)
  | noIPsFound (hostname : String)
  | emptyCacheEntry
deriving DecidableEq

/-- `DnsResolver.Resolve` from the source (part_003): reject TTLs below
10; on a cache hit return the first cached address; otherwise consult the
resolver (the `oracle` stands for `net.DefaultResolver.LookupIP`), fail
on a lookup error or an empty result, store all resolved addresses with
the insertion time `now` and the TTL, and return the first address. -/
def Resolve (d : DnsResolver) (hostname : String)
    (oracle : String → Except String (List String)) (cacheTTLSec : ℤ)
    (now : ℚ) : Except DnsErr String × DnsResolver :=
  if cacheTTLSec < 10 then
    (.error (.ttlTooLow cacheTTLSec), d)
  else
    match lookupKey hostname d.cache with
    | some entry =>
      match entry.ips with
      | [] => (.error .emptyCacheEntry, d)
      | ip :: _ => (.ok ip, d)
    | none =>
      match oracle hostname with
      | .error e => (.error (.lookupFailed e), d)
      | .ok [] => (.error (.noIPsFound hostname), d)
      | .ok (ip :: rest) =>
        (.ok ip, ⟨storeAssoc d.cache hostname ⟨ip :: rest, now, cacheTTLSec⟩⟩)

/-- The registry owned by `GeoIpDatabase`: `domainLocations` is a
`map[string]*DomainGeoLocation`, modelled as a map from domain to an
index (the pointer) into an explicit `heap` of `DomainGeoLocation`
values, so that in-place mutation through shared pointers is
observable. -/
structure RegistryState where
  heap : List DomainGeoLocation
  domainLocations : List (String × ℕ)

/-- Write `b` into the `IsAlive` field of the heap cell at address `r`
(the Go statement `location.IsAlive = b` executed through a pointer). -/
def setAlive : List DomainGeoLocation → ℕ → Bool → List DomainGeoLocation
  | [], _, _ => []
  | c :: rest, 0, b => ⟨c.loc, b⟩ :: rest
  | c :: rest, r + 1, b => c :: setAlive rest r b

/-- The liveness classification of one health-check outcome: transport
errors are dead, and a response is alive exactly on the branch
`resp.StatusCode >= 200 && resp.StatusCode < 400` (part_004). -/
def aliveOfHealth : Except Unit ℤ → Bool
  | .error _ => false
  | .ok code => if 200 ≤ code ∧ code < 400 then true else false

/-- The loop of `updateDomainHealthState` (part_004): for each configured
domain, read its pointer from the (old) `domainLocations` snapshot, skip
domains not present, perform the health check (`hr domain` stands for
`client.Get` of the health URI: `.error` is a transport error, `.ok code`
a response status code), write the resulting liveness through the shared
pointer, and record the same pointer under the domain in the new map. -/
def healthLoop (hr : String → Except Unit ℤ) (oldMap : List (String × ℕ)) :
    List String → List DomainGeoLocation → List (String × ℕ) →
    List DomainGeoLocation × List (String × ℕ)
  | [], heap, newMap => (heap, newMap)
  | domain :: rest, heap, newMap =>
    match lookupKey domain oldMap with
    | none => healthLoop hr oldMap rest heap newMap
    | some r =>
      match hr domain with
      | .error _ =>
        healthLoop hr oldMap rest (setAlive heap r false) (newMap ++ [(domain, r)])
      | .ok code =>
        if 200 ≤ code ∧ code < 400 then
          healthLoop hr oldMap rest (setAlive heap r true) (newMap ++ [(domain, r)])
        else
          healthLoop hr oldMap rest (setAlive heap r false) (newMap ++ [(domain, r)])

/-- `updateDomainHealthState` (part_004): run the health-check loop over
the configured domains against the current map snapshot and then install
the rebuilt map by a single swap (the write-locked assignment
`g.domainLocations = newLocations`). -/
def updateDomainHealthState (hostingDomains : List String)
    (hr : String → Except Unit ℤ) (st : RegistryState) : RegistryState :=
  let res := healthLoop hr st.domainLocations hostingDomains st.heap []
  ⟨res.1, res.2⟩

/-- The loop of `updateDomainLocations` (part_004): for each configured
domain, resolve and geo-locate it (`resolve domain` stands for the
composite of `LookupIP` and `getIPLatLong`; `none` covers every failure
branch, which the code skips with `continue`), allocate a fresh
`DomainGeoLocation` with `IsAlive: true`, and record its address in the
new map. -/
def locationsLoop (resolve : String → Option GeoLocation) :
    List String → List DomainGeoLocation → List (String × ℕ) →
    List DomainGeoLocation × List (String × ℕ)
  | [], heap, newMap => (heap, newMap)
  | domain :: rest, heap, newMap =>
    match resolve domain with
    | none => locationsLoop resolve rest heap newMap
    | some loc =>
      locationsLoop resolve rest (heap ++ [⟨loc, true⟩]) (newMap ++ [(domain, heap.length)])

/-- `updateDomainLocations` (part_004): build the new location map with
freshly allocated values and install it by a single swap. -/
def updateDomainLocations (hostingDomains : List String)
    (resolve : String → Option GeoLocation) (st : RegistryState) : RegistryState :=
  let res := locationsLoop resolve hostingDomains st.heap []
  ⟨res.1, res.2⟩

/-- One sequential operation on the decision cache: a request-path call
of `GetDomainWithSmallestGeoDistance` (with its database snapshot, client
address, TTL and wall-clock time), or one pass of the
`StartCacheCleanup` sweep. -/
inductive CacheOp where
  | select (db : String → Except String CityRecord) (clientIp : String)
      (cacheTTLSec : ℤ) (now : ℚ)
  | sweep (now : ℚ)

/-- Apply one operation to the engine state. -/
noncomputable def applyOp (st : GeoState) : CacheOp → GeoState
  | .select db ip ttl now => (GetDomainWithSmallestGeoDistance st db ip ttl now).2
  | .sweep now => sweepCache st now

/-- Apply a sequence of operations in order. -/
noncomputable def applyOps (st : GeoState) : List CacheOp → GeoState
  | [] => st
  | op :: rest => applyOps (applyOp st op) rest

/-- The engine state right after `NewGeoIpDatabase`: empty decision
cache, `CacheLen` zero, the configured `maxCacheSize`, and whatever the
initial refresh produced as domain-location map. -/
def initState (m : ℤ) (locs : List (String × Option DomainGeoLocation)) : GeoState :=
  ⟨[], 0, m, locs⟩

/-- Whether a domain-location entry is non-nil and marked alive (the
entries the selection loop does not skip). -/
def aliveEntry : String × Option DomainGeoLocation → Bool
  | (_, some g) => g.isAlive
  | (_, none) => false

/-- The decision-cache counter invariant: `CacheLen` equals the number of
live cache entries, and the entry count respects the capacity bound
`maxCacheSize + 1` (inserts are guarded by `count <= maxCacheSize`). -/
def cacheInv (m : ℤ) (st : GeoState) : Prop :=
  st.maxCacheSize = m ∧ st.cacheLen = st.cache.length ∧
    (st.cache.length = 0 ∨ (st.cache.length : ℤ) ≤ m + 1)

/-- A concrete engine state (empty decision cache, capacity 100, two
alive domains and one dead one) used to exercise the theorems. -/
def exSt : GeoState :=
  ⟨[], 0, 100,
    [("eu.example.com", some ⟨⟨10, 20⟩, true⟩),
     ("us.example.com", some ⟨⟨30, 40⟩, true⟩),
     ("dead.example.com", some ⟨⟨50, 60⟩, false⟩)]⟩

/-- A concrete engine state in which no domain is alive (one dead entry
and one nil pointer). -/
def exStDead : GeoState :=
  ⟨[], 0, 100,
    [("a.example.com", some ⟨⟨0, 0⟩, false⟩), ("b.example.com", none)]⟩

/-- A concrete engine state whose `CacheLen` counter (5) exceeds its
`maxCacheSize` (3). -/
def exStFull : GeoState :=
  ⟨[], 5, 3, [("eu.example.com", some ⟨⟨10, 20⟩, true⟩)]⟩

/-- A concrete database oracle that has a record with data for every
address. -/
def exDb : String → Except String CityRecord := fun _ => .ok ⟨true, 0, 0⟩

/-- A concrete database oracle whose records have no data (`HasData()`
is false). -/
def exDbNoData : String → Except String CityRecord := fun _ => .ok ⟨false, 7, 8⟩

/-- A concrete database oracle that fails to decode every record. -/
def exDbBad : String → Except String CityRecord := fun _ => .error "bad record"

/-- A concrete DNS resolver state holding one cached entry. -/
def exDns : DnsResolver := ⟨[("cached.example.com", ⟨["192.0.2.1"], 0, 600⟩)]⟩

/-- A concrete DNS oracle resolving every hostname to one address. -/
def exOracle : String → Except String (List String) := fun _ => .ok ["192.0.2.2"]

/-- A concrete registry: two heap cells, both reachable from the
domain-location map. -/
def exReg : RegistryState :=
  ⟨[⟨⟨1, 2⟩, false⟩, ⟨⟨3, 4⟩, true⟩], [("a.example.com", 0), ("b.example.com", 1)]⟩

/-- A concrete registry with a single alive domain, used to exhibit the
in-place liveness mutation performed by the health refresh. -/
def exRegAlive : RegistryState := ⟨[⟨⟨1, 2⟩, true⟩], [("a.example.com", 0)]⟩

/-- A concrete health-check oracle: `a.example.com` answers 204, every
other domain fails with a transport error. -/
def exHr : String → Except Unit ℤ :=
  fun s => if s = "a.example.com" then .ok 204 else .error ()

/-- A concrete health-check oracle where every request fails with a
transport error. -/
def exHrFail : String → Except Unit ℤ := fun _ => .error ()

lemma sin_half_sq_sub_comm (x y : ℝ) :
    Real.sin ((x - y) / 2) ^ 2 = Real.sin ((y - x) / 2) ^ 2 := by
  rw [show (x - y) / 2 = -((y - x) / 2) by ring, Real.sin_neg]
  ring

lemma haversine_self (lat lon : ℝ) : HaversineDistance lat lon lat lon = 0 := by
  simp only [HaversineDistance]
  rw [sub_self, sub_self]
  norm_num [Real.sqrt_one, atan2, Real.arctan_zero]

lemma haversine_comm (lat1 lon1 lat2 lon2 : ℝ) :
    HaversineDistance lat1 lon1 lat2 lon2 = HaversineDistance lat2 lon2 lat1 lon1 := by
  simp only [HaversineDistance]
  rw [sin_half_sq_sub_comm (lat2 * Real.pi / 180) (lat1 * Real.pi / 180),
    sin_half_sq_sub_comm (lon2 * Real.pi / 180) (lon1 * Real.pi / 180),
    mul_comm (Real.cos (lat1 * Real.pi / 180)) (Real.cos (lat2 * Real.pi / 180))]

lemma atan2_le_pi_div_two (y x : ℝ) (hx : 0 ≤ x) : atan2 y x ≤ Real.pi / 2 := by
  unfold atan2
  split_ifs with h1 h2 h3 h4 h5
  · exact (Real.arctan_lt_pi_div_two _).le
  · linarith [h2.1]
  · linarith [h3.1]
  · linarith [Real.pi_pos]
  · linarith [Real.pi_pos]
  · linarith [Real.pi_pos]

lemma atan2_nonneg (y x : ℝ) (hy : 0 ≤ y) (hx : 0 ≤ x) : 0 ≤ atan2 y x := by
  unfold atan2
  split_ifs with h1 h2 h3 h4 h5
  · have := Real.arctan_strictMono.monotone (div_nonneg hy h1.le)
    rwa [Real.arctan_zero] at this
  · linarith [h2.1]
  · linarith [h3.1]
  · linarith [Real.pi_pos]
  · linarith [h5.2]
  · exact le_refl 0

lemma haversine_le (lat1 lon1 lat2 lon2 : ℝ) :
    HaversineDistance lat1 lon1 lat2 lon2 ≤ 6371 * Real.pi := by
  simp only [HaversineDistance]
  have h := atan2_le_pi_div_two
    (Real.sqrt (Real.sin ((lat2 * Real.pi / 180 - lat1 * Real.pi / 180) / 2) ^ 2 +
      Real.cos (lat1 * Real.pi / 180) * Real.cos (lat2 * Real.pi / 180) *
        Real.sin ((lon2 * Real.pi / 180 - lon1 * Real.pi / 180) / 2) ^ 2))
    (Real.sqrt (1 - (Real.sin ((lat2 * Real.pi / 180 - lat1 * Real.pi / 180) / 2) ^ 2 +
      Real.cos (lat1 * Real.pi / 180) * Real.cos (lat2 * Real.pi / 180) *
        Real.sin ((lon2 * Real.pi / 180 - lon1 * Real.pi / 180) / 2) ^ 2)))
    (Real.sqrt_nonneg _)
  linarith

lemma haversine_nonneg (lat1 lon1 lat2 lon2 : ℝ) :
    0 ≤ HaversineDistance lat1 lon1 lat2 lon2 := by
  simp only [HaversineDistance]
  have h := atan2_nonneg
    (Real.sqrt (Real.sin ((lat2 * Real.pi / 180 - lat1 * Real.pi / 180) / 2) ^ 2 +
      Real.cos (lat1 * Real.pi / 180) * Real.cos (lat2 * Real.pi / 180) *
        Real.sin ((lon2 * Real.pi / 180 - lon1 * Real.pi / 180) / 2) ^ 2))
    (Real.sqrt (1 - (Real.sin ((lat2 * Real.pi / 180 - lat1 * Real.pi / 180) / 2) ^ 2 +
      Real.cos (lat1 * Real.pi / 180) * Real.cos (lat2 * Real.pi / 180) *
        Real.sin ((lon2 * Real.pi / 180 - lon1 * Real.pi / 180) / 2) ^ 2)))
    (Real.sqrt_nonneg _) (Real.sqrt_nonneg _)
  linarith

lemma haversine_lt_maxFloat64 (lat1 lon1 lat2 lon2 : ℝ) :
    HaversineDistance lat1 lon1 lat2 lon2 < maxFloat64 := by
  refine lt_of_le_of_lt (haversine_le lat1 lon1 lat2 lon2) ?_
  have h4 := Real.pi_le_four
  have h1 : (6371 : ℝ) * Real.pi ≤ 6371 * 4 := by
    have := Real.pi_pos
    nlinarith
  refine lt_of_le_of_lt h1 ?_
  unfold maxFloat64
  norm_num

lemma distTo_lt_maxFloat64 (client : GeoLocation) (g : DomainGeoLocation) :
    distTo client g < maxFloat64 :=
  haversine_lt_maxFloat64 _ _ _ _

lemma lookupKey_cons_self {α : Type} (k : String) (v : α) (l : List (String × α)) :
    lookupKey k ((k, v) :: l) = some v := by
  simp [lookupKey]

lemma lookupKey_mem {α : Type} {k : String} {v : α} :
    ∀ {l : List (String × α)}, lookupKey k l = some v → (k, v) ∈ l := by
  intro l
  induction l with
  | nil => intro h; simp [lookupKey] at h
  | cons p rest ih =>
    obtain ⟨a, b⟩ := p
    intro h
    by_cases hk : a = k
    · subst hk
      simp [lookupKey] at h
      subst h
      exact List.mem_cons_self _ _
    · simp [lookupKey, hk] at h
      exact List.mem_cons_of_mem _ (ih h)

lemma lookupKey_append_of_none {α : Type} {k : String} {l₁ : List (String × α)}
    (l₂ : List (String × α)) (h : lookupKey k l₁ = none) :
    lookupKey k (l₁ ++ l₂) = lookupKey k l₂ := by
  induction l₁ with
  | nil => simp
  | cons p rest ih =>
    by_cases hk : p.1 = k
    · simp [lookupKey, hk] at h
    · simp only [lookupKey, hk, if_false, List.cons_append] at h ⊢
      exact ih h

lemma lookupKey_append_of_some {α : Type} {k : String} {v : α}
    {l₁ : List (String × α)} (l₂ : List (String × α))
    (h : lookupKey k l₁ = some v) : lookupKey k (l₁ ++ l₂) = some v := by
  induction l₁ with
  | nil => simp [lookupKey] at h
  | cons p rest ih =>
    by_cases hk : p.1 = k
    · simp only [lookupKey, hk, if_true] at h ⊢
      exact h
    · simp only [lookupKey, hk, if_false, List.cons_append] at h ⊢
      exact ih h

lemma lookupKey_single_ne {α : Type} {k d : String} (v : α) (h : k ≠ d) :
    lookupKey k [(d, v)] = none := by
  have hdk : ¬ d = k := fun hx => h hx.symm
  simp [lookupKey, hdk]

lemma storeAssoc_of_miss {α : Type} {cache : List (String × α)} {k : String}
    (v : α) (h : lookupKey k cache = none) :
    storeAssoc cache k v = (k, v) :: cache := by
  simp [storeAssoc, h]

lemma setAlive_getElem?_ne (heap : List DomainGeoLocation) :
    ∀ (r' r : ℕ) (b : Bool), r' ≠ r → (setAlive heap r' b)[r]? = heap[r]? := by
  induction heap with
  | nil => intro r' r b _; simp [setAlive]
  | cons c rest ih =>
    intro r' r b hne
    cases r' with
    | zero =>
      cases r with
      | zero => exact absurd rfl hne
      | succ n => simp [setAlive]
    | succ m =>
      cases r with
      | zero => simp [setAlive]
      | succ n =>
        simp only [setAlive, List.getElem?_cons_succ]
        exact ih m n b (fun h => hne (by rw [h]))

lemma setAlive_getElem?_self {heap : List DomainGeoLocation} :
    ∀ {r : ℕ} {c : DomainGeoLocation} (b : Bool), heap[r]? = some c →
      (setAlive heap r b)[r]? = some ⟨c.loc, b⟩ := by
  induction heap with
  | nil => intro r c b h; simp at h
  | cons c0 rest ih =>
    intro r c b h
    cases r with
    | zero =>
      simp only [List.getElem?_cons_zero, Option.some.injEq] at h
      subst h
      simp [setAlive]
    | succ n =>
      simp only [List.getElem?_cons_succ] at h
      simpa [setAlive] using ih b h

lemma setAlive_loc (heap : List DomainGeoLocation) :
    ∀ (r' : ℕ) (b : Bool) (r : ℕ),
      ((setAlive heap r' b)[r]?).map (fun c => c.loc) = (heap[r]?).map (fun c => c.loc) := by
  induction heap with
  | nil => intro r' b r; simp [setAlive]
  | cons c rest ih =>
    intro r' b r
    cases r' with
    | zero =>
      cases r with
      | zero => simp [setAlive]
      | succ n => simp [setAlive]
    | succ m =>
      cases r with
      | zero => simp [setAlive]
      | succ n => simpa [setAlive] using ih m b n

lemma setAlive_length (heap : List DomainGeoLocation) :
    ∀ (r : ℕ) (b : Bool), (setAlive heap r b).length = heap.length := by
  induction heap with
  | nil => intro r b; simp [setAlive]
  | cons c rest ih =>
    intro r b
    cases r with
    | zero => simp [setAlive]
    | succ n => simpa [setAlive] using ih n b

lemma filter_length_partition {α : Type} (p : α → Bool) (l : List α) :
    (l.filter (fun a => !(p a))).length + (l.filter p).length = l.length := by
  induction l with
  | nil => simp
  | cons a rest ih =>
    cases h : p a <;> simp [List.filter_cons, h] <;> omega

lemma selectLoop_le (client : GeoLocation) :
    ∀ (entries : List (String × Option DomainGeoLocation)) (acc : String × ℝ),
      (selectLoop client entries acc).2 ≤ acc.2 := by
  intro entries
  induction entries with
  | nil => intro acc; exact le_refl _
  | cons p rest ih =>
    intro acc
    match hp : p.2 with
    | none => simpa [selectLoop, hp] using ih acc
    | some g =>
      by_cases ha : g.isAlive
      · by_cases hd : distTo client g < acc.2
        · have := ih (p.1, distTo client g)
          simp only [selectLoop, hp, ha, if_true, hd]
          exact le_trans this hd.le
        · simpa [selectLoop, hp, ha, hd] using ih acc
      · simpa [selectLoop, hp, ha] using ih acc

lemma selectLoop_min (client : GeoLocation) :
    ∀ (entries : List (String × Option DomainGeoLocation)) (acc : String × ℝ)
      (d : String) (g : DomainGeoLocation),
      (d, some g) ∈ entries → g.isAlive = true →
      (selectLoop client entries acc).2 ≤ distTo client g := by
  intro entries
  induction entries with
  | nil => intro acc d g hm; simp at hm
  | cons p rest ih =>
    intro acc d g hm ha
    rcases List.mem_cons.1 hm with hhead | htail
    · have hp : p.2 = some g := by rw [← hhead]
      by_cases hd : distTo client g < acc.2
      · simp only [selectLoop, hp, ha, if_true, hd]
        exact selectLoop_le client rest _
      · simp only [selectLoop, hp, ha, if_true, hd, if_false]
        exact le_trans (selectLoop_le client rest acc) (not_lt.1 hd)
    · match hp : p.2 with
      | none => simpa [selectLoop, hp] using ih acc d g htail ha
      | some g0 =>
        by_cases ha0 : g0.isAlive
        · by_cases hd0 : distTo client g0 < acc.2
          · simpa [selectLoop, hp, ha0, hd0] using
              ih (p.1, distTo client g0) d g htail ha
          · simpa [selectLoop, hp, ha0, hd0] using ih acc d g htail ha
        · simpa [selectLoop, hp, ha0] using ih acc d g htail ha

lemma selectLoop_char (client : GeoLocation) :
    ∀ (entries : List (String × Option DomainGeoLocation)) (acc : String × ℝ),
      selectLoop client entries acc = acc ∨
      ∃ d g, (d, some g) ∈ entries ∧ g.isAlive = true ∧
        selectLoop client entries acc = (d, distTo client g) := by
  intro entries
  induction entries with
  | nil => intro acc; exact Or.inl rfl
  | cons p rest ih =>
    intro acc
    match hp : p.2 with
    | none =>
      rcases ih acc with h | ⟨d, g, hm, ha, hr⟩
      · exact Or.inl (by simpa [selectLoop, hp] using h)
      · exact Or.inr ⟨d, g, List.mem_cons_of_mem _ hm, ha,
          by simpa [selectLoop, hp] using hr⟩
    | some g0 =>
      by_cases ha0 : g0.isAlive
      · by_cases hd0 : distTo client g0 < acc.2
        · rcases ih (p.1, distTo client g0) with h | ⟨d, g, hm, ha, hr⟩
          · refine Or.inr ⟨p.1, g0, ?_, ha0, ?_⟩
            · have : p = (p.1, some g0) := by rw [← hp]
              rw [← this]; exact List.mem_cons_self _ _
            · simpa [selectLoop, hp, ha0, hd0] using h
          · exact Or.inr ⟨d, g, List.mem_cons_of_mem _ hm, ha,
              by simpa [selectLoop, hp, ha0, hd0] using hr⟩
        · rcases ih acc with h | ⟨d, g, hm, ha, hr⟩
          · exact Or.inl (by simpa [selectLoop, hp, ha0, hd0] using h)
          · exact Or.inr ⟨d, g, List.mem_cons_of_mem _ hm, ha,
              by simpa [selectLoop, hp, ha0, hd0] using hr⟩
      · rcases ih acc with h | ⟨d, g, hm, ha, hr⟩
        · exact Or.inl (by simpa [selectLoop, hp, ha0] using h)
        · exact Or.inr ⟨d, g, List.mem_cons_of_mem _ hm, ha,
            by simpa [selectLoop, hp, ha0] using hr⟩

lemma selectLoop_of_no_alive (client : GeoLocation)
    (entries : List (String × Option DomainGeoLocation))
    (h : ∀ p ∈ entries, aliveEntry p = false) :
    selectLoop client entries ("", maxFloat64) = ("", maxFloat64) := by
  rcases selectLoop_char client entries ("", maxFloat64) with hr | ⟨d, g, hm, ha, _⟩
  · exact hr
  · have := h (d, some g) hm
    simp [aliveEntry] at this
    rw [this] at ha
    exact absurd ha (by simp)

lemma selectLoop_found (client : GeoLocation)
    (entries : List (String × Option DomainGeoLocation))
    (hne : ∀ p ∈ entries, p.1 ≠ "")
    (d₁ : String) (g₁ : DomainGeoLocation)
    (h₁ : (d₁, some g₁) ∈ entries) (ha₁ : g₁.isAlive = true) :
    ∃ d g, (d, some g) ∈ entries ∧ g.isAlive = true ∧
      selectLoop client entries ("", maxFloat64) = (d, distTo client g) ∧
      d ≠ "" ∧
      ∀ d' g', (d', some g') ∈ entries → g'.isAlive = true →
        distTo client g ≤ distTo client g' := by
  rcases selectLoop_char client entries ("", maxFloat64) with hr | ⟨d, g, hm, ha, hr⟩
  · exfalso
    have hmin := selectLoop_min client entries ("", maxFloat64) d₁ g₁ h₁ ha₁
    rw [hr] at hmin
    exact absurd hmin (not_le.2 (distTo_lt_maxFloat64 client g₁))
  · refine ⟨d, g, hm, ha, hr, hne (d, some g) hm, ?_⟩
    intro d' g' hm' ha'
    have hmin := selectLoop_min client entries ("", maxFloat64) d' g' hm' ha'
    rwa [hr] at hmin

lemma getDomain_ttl (st : GeoState) (db : String → Except String CityRecord)
    (ip : String) (ttl : ℤ) (now : ℚ) (h : ttl < 10) :
    GetDomainWithSmallestGeoDistance st db ip ttl now =
      (.error (.ttlTooLow ttl), st) := by
  simp [GetDomainWithSmallestGeoDistance, h]

lemma getDomain_hit (st : GeoState) (db : String → Except String CityRecord)
    (ip : String) (ttl : ℤ) (now : ℚ) (e : GeoCacheEntry)
    (h10 : 10 ≤ ttl) (hhit : lookupKey ip st.cache = some e) :
    GetDomainWithSmallestGeoDistance st db ip ttl now = (.ok e.domain, st) := by
  rw [GetDomainWithSmallestGeoDistance, if_neg (by omega), hhit]

lemma getDomain_lookup_error (st : GeoState)
    (db : String → Except String CityRecord) (ip : String) (ttl : ℤ) (now : ℚ)
    (e : LookupErr) (h10 : 10 ≤ ttl) (hmiss : lookupKey ip st.cache = none)
    (hlok : getIPLatLong db ip = .error e) :
    GetDomainWithSmallestGeoDistance st db ip ttl now =
      (.error (.clientLocationFailed e), st) := by
  rw [GetDomainWithSmallestGeoDistance, if_neg (by omega), hmiss, hlok]

lemma getDomain_all_down (st : GeoState)
    (db : String → Except String CityRecord) (ip : String) (ttl : ℤ) (now : ℚ)
    (client : GeoLocation) (h10 : 10 ≤ ttl)
    (hmiss : lookupKey ip st.cache = none)
    (hlok : getIPLatLong db ip = .ok client)
    (hdead : ∀ p ∈ st.domainLocations, aliveEntry p = false) :
    GetDomainWithSmallestGeoDistance st db ip ttl now =
      (.error (.allDomainsDown st.domainLocations.length), st) := by
  rw [GetDomainWithSmallestGeoDistance, if_neg (by omega), hmiss, hlok]
  simp only [selectLoop_of_no_alive client st.domainLocations hdead]
  simp

lemma getDomain_ok (st : GeoState) (db : String → Except String CityRecord)
    (ip : String) (ttl : ℤ) (now : ℚ) (client : GeoLocation)
    (h10 : 10 ≤ ttl) (hmiss : lookupKey ip st.cache = none)
    (hlok : getIPLatLong db ip = .ok client)
    (hne : ∀ p ∈ st.domainLocations, p.1 ≠ "")
    (d₁ : String) (g₁ : DomainGeoLocation)
    (h₁ : (d₁, some g₁) ∈ st.domainLocations) (ha₁ : g₁.isAlive = true) :
    ∃ d g, (d, some g) ∈ st.domainLocations ∧ g.isAlive = true ∧
      (∀ d' g', (d', some g') ∈ st.domainLocations → g'.isAlive = true →
        distTo client g ≤ distTo client g') ∧
      (∀ d₀ g₀, (d₀, some g₀) ∈ st.domainLocations → g₀.isAlive = true →
        (∀ d' g', (d', some g') ∈ st.domainLocations → g'.isAlive = true → d' = d₀) →
        d = d₀) ∧
      (GetDomainWithSmallestGeoDistance st db ip ttl now).1 = .ok d ∧
      (intOfUInt64 st.cacheLen ≤ st.maxCacheSize →
        (GetDomainWithSmallestGeoDistance st db ip ttl now).2 =
          { st with
            cacheLen := (st.cacheLen + 1) % 2 ^ 64,
            cache := (ip, ⟨d, ttl, now⟩) :: st.cache }) ∧
      (¬ intOfUInt64 st.cacheLen ≤ st.maxCacheSize →
        (GetDomainWithSmallestGeoDistance st db ip ttl now).2 = st) := by
  obtain ⟨d, g, hm, ha, hr, hdne, hmin⟩ :=
    selectLoop_found client st.domainLocations hne d₁ g₁ h₁ ha₁
  refine ⟨d, g, hm, ha, hmin, ?_, ?_, ?_, ?_⟩
  · intro d₀ g₀ hm₀ ha₀ huniq
    exact huniq d g hm ha
  · rw [GetDomainWithSmallestGeoDistance, if_neg (by omega), hmiss, hlok]
    simp only [hr]
    rw [if_neg hdne]
    by_cases hcap : intOfUInt64 st.cacheLen ≤ st.maxCacheSize
    · rw [if_pos hcap]
    · rw [if_neg hcap]
  · intro hcap
    rw [GetDomainWithSmallestGeoDistance, if_neg (by omega), hmiss, hlok]
    simp only [hr]
    rw [if_neg hdne, if_pos hcap, storeAssoc_of_miss _ hmiss]
  · intro hcap
    rw [GetDomainWithSmallestGeoDistance, if_neg (by omega), hmiss, hlok]
    simp only [hr]
    rw [if_neg hdne, if_neg hcap]

lemma getDomain_state (st : GeoState) (db : String → Except String CityRecord)
    (ip : String) (ttl : ℤ) (now : ℚ) :
    (GetDomainWithSmallestGeoDistance st db ip ttl now).2 = st ∨
    (lookupKey ip st.cache = none ∧ intOfUInt64 st.cacheLen ≤ st.maxCacheSize ∧
      ∃ e : GeoCacheEntry,
        (GetDomainWithSmallestGeoDistance st db ip ttl now).2 =
          { st with
            cacheLen := (st.cacheLen + 1) % 2 ^ 64,
            cache := (ip, e) :: st.cache }) := by
  by_cases h : ttl < 10
  · exact Or.inl (by rw [getDomain_ttl st db ip ttl now h])
  · have h10 : 10 ≤ ttl := by omega
    match hmiss : lookupKey ip st.cache with
    | some e => exact Or.inl (by rw [getDomain_hit st db ip ttl now e h10 hmiss])
    | none =>
      match hlok : getIPLatLong db ip with
      | .error e =>
        exact Or.inl (by rw [getDomain_lookup_error st db ip ttl now e h10 hmiss hlok])
      | .ok client =>
        rw [GetDomainWithSmallestGeoDistance, if_neg (by omega), hmiss, hlok]
        by_cases hb : (selectLoop client st.domainLocations ("", maxFloat64)).1 = ""
        · exact Or.inl (by simp [hb])
        · simp only [if_neg hb]
          by_cases hcap : intOfUInt64 st.cacheLen ≤ st.maxCacheSize
          · refine Or.inr ⟨by trivial, hcap,
              ⟨(selectLoop client st.domainLocations ("", maxFloat64)).1, ttl, now⟩, ?_⟩
            rw [if_pos hcap, storeAssoc_of_miss _ hmiss]
          · exact Or.inl (by rw [if_neg hcap])

lemma intOfUInt64_of_lt {n : ℕ} (h : n < 2 ^ 63) : intOfUInt64 n = (n : ℤ) := by
  have h64 : n < 2 ^ 64 := lt_trans h (by norm_num)
  rw [intOfUInt64, Nat.mod_eq_of_lt h64, if_pos h]

lemma cacheInv_select (m : ℤ) (st : GeoState) (hm : m + 1 < 2 ^ 63)
    (hinv : cacheInv m st) (db : String → Except String CityRecord)
    (ip : String) (ttl : ℤ) (now : ℚ) :
    cacheInv m (GetDomainWithSmallestGeoDistance st db ip ttl now).2 := by
  obtain ⟨hmax, hlen, hbound⟩ := hinv
  rcases getDomain_state st db ip ttl now with hsame | ⟨_, hcap, e, hstate⟩
  · rw [hsame]; exact ⟨hmax, hlen, hbound⟩
  · have hsmall : st.cache.length < 2 ^ 63 := by
      rcases hbound with h0 | hle
      · omega
      · have : (st.cache.length : ℤ) < 2 ^ 63 := lt_of_le_of_lt hle hm
        exact_mod_cast this
    rw [hlen, intOfUInt64_of_lt hsmall] at hcap
    rw [hstate]
    refine ⟨hmax, ?_, ?_⟩
    · have hlt : st.cache.length + 1 < 2 ^ 64 := by
        have : (2 : ℕ) ^ 63 < 2 ^ 64 := by norm_num
        omega
      simp only [hlen, List.length_cons]
      exact Nat.mod_eq_of_lt hlt
    · right
      simp only [List.length_cons]
      push_cast
      rw [hmax] at hcap
      omega

lemma cacheInv_sweep (m : ℤ) (st : GeoState) (hm : m + 1 < 2 ^ 63)
    (hinv : cacheInv m st) (now : ℚ) : cacheInv m (sweepCache st now) := by
  obtain ⟨hmax, hlen, hbound⟩ := hinv
  have hsmall : st.cache.length < 2 ^ 63 := by
    rcases hbound with h0 | hle
    · omega
    · have : (st.cache.length : ℤ) < 2 ^ 63 := lt_of_le_of_lt hle hm
      exact_mod_cast this
  set p : String × GeoCacheEntry → Bool :=
    fun q => expiredEntry now q.2.ttlSec q.2.insertTime with hp
  have hpart := filter_length_partition p st.cache
  set keep := (st.cache.filter (fun q => !(p q))).length with hkeep
  set gone := (st.cache.filter p).length with hgone
  refine ⟨hmax, ?_, ?_⟩
  · show (st.cacheLen + (2 ^ 64 - 1) * gone) % 2 ^ 64 = keep
    rw [hlen]
    have hsum : st.cache.length + (2 ^ 64 - 1) * gone = keep + 2 ^ 64 * gone := by
      omega
    rw [hsum, Nat.add_mul_mod_self_left, Nat.mod_eq_of_lt (by omega)]
  · show keep = 0 ∨ (keep : ℤ) ≤ m + 1
    rcases hbound with h0 | hle
    · left; omega
    · right
      have hk : keep ≤ st.cache.length := by omega
      have : (keep : ℤ) ≤ (st.cache.length : ℤ) := by exact_mod_cast hk
      omega

lemma cacheInv_applyOp (m : ℤ) (st : GeoState) (hm : m + 1 < 2 ^ 63)
    (hinv : cacheInv m st) (op : CacheOp) : cacheInv m (applyOp st op) := by
  cases op with
  | select db ip ttl now => exact cacheInv_select m st hm hinv db ip ttl now
  | sweep now => exact cacheInv_sweep m st hm hinv now

lemma cacheInv_applyOps (m : ℤ) (hm : m + 1 < 2 ^ 63) :
    ∀ (ops : List CacheOp) (st : GeoState), cacheInv m st →
      cacheInv m (applyOps st ops) := by
  intro ops
  induction ops with
  | nil => intro st hinv; exact hinv
  | cons op rest ih =>
    intro st hinv
    exact ih (applyOp st op) (cacheInv_applyOp m st hm hinv op)

lemma resolve_ttl (d : DnsResolver) (hostname : String)
    (oracle : String → Except String (List String)) (ttl : ℤ) (now : ℚ)
    (h : ttl < 10) :
    Resolve d hostname oracle ttl now = (.error (.ttlTooLow ttl), d) := by
  simp [Resolve, h]

lemma resolve_insert (d : DnsResolver) (hostname : String)
    (oracle : String → Except String (List String)) (ttl : ℤ) (now : ℚ)
    (ip : String) (ips : List String) (h10 : 10 ≤ ttl)
    (hmiss : lookupKey hostname d.cache = none)
    (hres : oracle hostname = .ok (ip :: ips)) :
    Resolve d hostname oracle ttl now =
      (.ok ip, ⟨(hostname, ⟨ip :: ips, now, ttl⟩) :: d.cache⟩) := by
  simp [Resolve, hmiss, hres, storeAssoc_of_miss _ hmiss,
    show ¬ ttl < 10 by omega]

lemma healthLoop_step (hr : String → Except Unit ℤ) (oldMap : List (String × ℕ))
    (domain : String) (rest : List String) (heap : List DomainGeoLocation)
    (newMap : List (String × ℕ)) :
    healthLoop hr oldMap (domain :: rest) heap newMap =
      match lookupKey domain oldMap with
      | none => healthLoop hr oldMap rest heap newMap
      | some r => healthLoop hr oldMap rest
          (setAlive heap r (aliveOfHealth (hr domain))) (newMap ++ [(domain, r)]) := by
  cases hlk : lookupKey domain oldMap with
  | none => simp [healthLoop, hlk]
  | some r =>
    cases hhr : hr domain with
    | error e => simp [healthLoop, hlk, hhr, aliveOfHealth]
    | ok code =>
      by_cases hc : 200 ≤ code ∧ code < 400
      · simp [healthLoop, hlk, hhr, aliveOfHealth, hc]
      · simp [healthLoop, hlk, hhr, aliveOfHealth, hc]

lemma healthLoop_frame (hr : String → Except Unit ℤ) (oldMap : List (String × ℕ))
    (r : ℕ) (k : String) :
    ∀ (rest : List String) (heap : List DomainGeoLocation) (newMap : List (String × ℕ)),
      (∀ d' ∈ rest, ∀ r', lookupKey d' oldMap = some r' → r' ≠ r) →
      k ∉ rest →
      (healthLoop hr oldMap rest heap newMap).1[r]? = heap[r]? ∧
      lookupKey k (healthLoop hr oldMap rest heap newMap).2 = lookupKey k newMap := by
  intro rest
  induction rest with
  | nil => intro heap newMap _ _; exact ⟨rfl, rfl⟩
  | cons d₀ tail ih =>
    intro heap newMap hdisj hk
    have hk₀ : k ≠ d₀ := fun h => hk (h ▸ List.mem_cons_self _ _)
    have hktail : k ∉ tail := fun h => hk (List.mem_cons_of_mem _ h)
    have hdtail : ∀ d' ∈ tail, ∀ r', lookupKey d' oldMap = some r' → r' ≠ r :=
      fun d' hd' => hdisj d' (List.mem_cons_of_mem _ hd')
    rw [healthLoop_step]
    cases hlk : lookupKey d₀ oldMap with
    | none => exact ih heap newMap hdtail hktail
    | some r₀ =>
      have hr₀ : r₀ ≠ r := hdisj d₀ (List.mem_cons_self _ _) r₀ hlk
      obtain ⟨hheap, hmap⟩ := ih (setAlive heap r₀ (aliveOfHealth (hr d₀)))
        (newMap ++ [(d₀, r₀)]) hdtail hktail
      refine ⟨?_, ?_⟩
      · rw [hheap, setAlive_getElem?_ne heap r₀ r _ hr₀]
      · rw [hmap]
        cases hkm : lookupKey k newMap with
        | none => rw [lookupKey_append_of_none _ hkm, lookupKey_single_ne _ hk₀]
        | some v => rw [lookupKey_append_of_some _ hkm]

lemma healthLoop_main (hr : String → Except Unit ℤ) (oldMap : List (String × ℕ))
    (d : String) (r : ℕ) (cell : DomainGeoLocation)
    (hlk : lookupKey d oldMap = some r)
    (hdisj : ∀ d' r', lookupKey d' oldMap = some r' → d' ≠ d → r' ≠ r) :
    ∀ (hosting : List String) (heap : List DomainGeoLocation)
      (newMap : List (String × ℕ)),
      d ∈ hosting → hosting.Nodup → lookupKey d newMap = none →
      heap[r]? = some cell →
      (healthLoop hr oldMap hosting heap newMap).1[r]? =
        some ⟨cell.loc, aliveOfHealth (hr d)⟩ ∧
      lookupKey d (healthLoop hr oldMap hosting heap newMap).2 = some r := by
  intro hosting
  induction hosting with
  | nil => intro heap newMap hd; simp at hd
  | cons d₀ tail ih =>
    intro heap newMap hd hnodup hnew hcell
    by_cases hdd : d₀ = d
    · subst hdd
      have hdtail : d₀ ∉ tail := (List.nodup_cons.1 hnodup).1
      rw [healthLoop_step, hlk]
      have hdisj' : ∀ d' ∈ tail, ∀ r', lookupKey d' oldMap = some r' → r' ≠ r := by
        intro d' hd' r' hlk'
        exact hdisj d' r' hlk' (fun h => hdtail (h ▸ hd'))
      obtain ⟨hheap, hmap⟩ := healthLoop_frame hr oldMap r d₀ tail
        (setAlive heap r (aliveOfHealth (hr d₀))) (newMap ++ [(d₀, r)]) hdisj' hdtail
      refine ⟨?_, ?_⟩
      · rw [hheap, setAlive_getElem?_self _ hcell]
      · rw [hmap, lookupKey_append_of_none _ hnew, lookupKey_cons_self]
    · have hdtail : d ∈ tail := by
        rcases List.mem_cons.1 hd with h | h
        · exact absurd h.symm hdd
        · exact h
      have hnodup' : tail.Nodup := (List.nodup_cons.1 hnodup).2
      rw [healthLoop_step]
      cases hlk₀ : lookupKey d₀ oldMap with
      | none => exact ih heap newMap hdtail hnodup' hnew hcell
      | some r₀ =>
        have hr₀ : r₀ ≠ r := hdisj d₀ r₀ hlk₀ hdd
        have hnew' : lookupKey d (newMap ++ [(d₀, r₀)]) = none := by
          rw [lookupKey_append_of_none _ hnew,
            lookupKey_single_ne _ (fun h => hdd h.symm)]
        have hcell' : (setAlive heap r₀ (aliveOfHealth (hr d₀)))[r]? = some cell := by
          rw [setAlive_getElem?_ne heap r₀ r _ hr₀]; exact hcell
        exact ih _ _ hdtail hnodup' hnew' hcell'

lemma healthLoop_loc (hr : String → Except Unit ℤ) (oldMap : List (String × ℕ)) :
    ∀ (hosting : List String) (heap : List DomainGeoLocation)
      (newMap : List (String × ℕ)) (r : ℕ),
      ((healthLoop hr oldMap hosting heap newMap).1[r]?).map (fun c => c.loc) =
        (heap[r]?).map (fun c => c.loc) := by
  intro hosting
  induction hosting with
  | nil => intro heap newMap r; rfl
  | cons d₀ tail ih =>
    intro heap newMap r
    rw [healthLoop_step]
    cases hlk : lookupKey d₀ oldMap with
    | none => exact ih heap newMap r
    | some r₀ =>
      rw [ih (setAlive heap r₀ (aliveOfHealth (hr d₀))) (newMap ++ [(d₀, r₀)]) r,
        setAlive_loc heap r₀ _ r]

lemma locationsLoop_extends (resolve : String → Option GeoLocation) :
    ∀ (hosting : List String) (heap : List DomainGeoLocation)
      (newMap : List (String × ℕ)),
      ∃ suffix, (locationsLoop resolve hosting heap newMap).1 = heap ++ suffix := by
  intro hosting
  induction hosting with
  | nil => intro heap newMap; exact ⟨[], by simp [locationsLoop]⟩
  | cons d₀ tail ih =>
    intro heap newMap
    cases hres : resolve d₀ with
    | none =>
      obtain ⟨suffix, hs⟩ := ih heap newMap
      exact ⟨suffix, by simpa [locationsLoop, hres] using hs⟩
    | some loc =>
      obtain ⟨suffix, hs⟩ := ih (heap ++ [⟨loc, true⟩]) (newMap ++ [(d₀, heap.length)])
      refine ⟨⟨loc, true⟩ :: suffix, ?_⟩
      simp only [locationsLoop, hres]
      rw [hs, List.append_assoc]
      rfl

lemma aliveOfHealth_iff (res : Except Unit ℤ) :
    aliveOfHealth res = true ↔ ∃ c, res = .ok c ∧ 200 ≤ c ∧ c < 400 := by
  cases res with
  | error e => simp [aliveOfHealth]
  | ok c =>
    simp only [aliveOfHealth]
    by_cases h : 200 ≤ c ∧ c < 400
    · rw [if_pos h]
      exact ⟨fun _ => ⟨c, rfl, h.1, h.2⟩, fun _ => rfl⟩
    · rw [if_neg h]
      constructor
      · intro hfalse; exact absurd hfalse (by simp)
      · rintro ⟨c', hc', hle, hlt⟩
        injection hc' with hc'
        subst hc'
        exact absurd ⟨hle, hlt⟩ h

lemma aliveEntry_some {l : List (String × Option DomainGeoLocation)}
    (h : ∃ p ∈ l, aliveEntry p = true) :
    ∃ d₁ g₁, (d₁, some g₁) ∈ l ∧ g₁.isAlive = true := by
  obtain ⟨⟨d₁, og⟩, hm, hal⟩ := h
  cases og with
  | none => simp [aliveEntry] at hal
  | some g₁ => exact ⟨d₁, g₁, hm, by simpa [aliveEntry] using hal⟩

/-- C9: `HaversineDistance(x, x) = 0` for every coordinate pair `x`, and
`HaversineDistance(a, b) = HaversineDistance(b, a)` for all coordinate
pairs `a` and `b`. (As a Lean function the embedding is definitionally
pure and deterministic: equal inputs give equal outputs.) -/
theorem C9_haversine_self_and_symm :
    ∀ lat lon lat' lon' : ℝ,
      HaversineDistance lat lon lat lon = 0 ∧
      HaversineDistance lat lon lat' lon' = HaversineDistance lat' lon' lat lon :=
  fun lat lon lat' lon' => ⟨haversine_self lat lon, haversine_comm lat lon lat' lon'⟩

/-- C6: for every `cacheTTLSec < 10`, both `GetDomainWithSmallestGeoDistance`
and `DnsResolver.Resolve` fail with the TTL validation error and leave
their state unchanged. The database oracle `db` and the DNS oracle
`oracle` are universally quantified and absent from the result, so the
call provably performs no geo-database lookup and no DNS lookup, and the
unchanged state shows no cache write happened. -/
theorem C6_ttl_below_ten_rejected
    (st : GeoState) (db : String → Except String CityRecord) (ip : String)
    (ttl : ℤ) (now : ℚ) (d : DnsResolver) (hostname : String)
    (oracle : String → Except String (List String)) (now₂ : ℚ)
    (h : ttl < 10) :
    GetDomainWithSmallestGeoDistance st db ip ttl now =
      (.error (.ttlTooLow ttl), st) ∧
    Resolve d hostname oracle ttl now₂ = (.error (.ttlTooLow ttl), d) :=
  ⟨getDomain_ttl st db ip ttl now h, resolve_ttl d hostname oracle ttl now₂ h⟩

/-- Witness for C6 at the concrete TTL 5. -/
theorem C6_ttl_below_ten_rejected_witness :
    (5 : ℤ) < 10 ∧
    GetDomainWithSmallestGeoDistance exSt exDb "198.51.100.7" 5 0 =
      (.error (.ttlTooLow 5), exSt) ∧
    Resolve exDns "fresh.example.com" exOracle 5 0 =
      (.error (.ttlTooLow 5), exDns) :=
  ⟨by decide,
    (C6_ttl_below_ten_rejected exSt exDb "198.51.100.7" 5 0 exDns
      "fresh.example.com" exOracle 0 (by decide)).1,
    (C6_ttl_below_ten_rejected exSt exDb "198.51.100.7" 5 0 exDns
      "fresh.example.com" exOracle 0 (by decide)).2⟩

/-- C8: `getIPLatLong` returns the NotFound error whenever the database
record for the address has no data, the decode error whenever the reader
fails on the record, and it returns a location only when the database
holds a record with data whose coordinates it copies — never a
fabricated location. -/
theorem C8_geo_lookup_errors (db : String → Except String CityRecord)
    (ip : String) :
    (∀ e, db ip = .error e → getIPLatLong db ip = .error (.decodeFailed e)) ∧
    (∀ r, db ip = .ok r → r.hasData = false →
      getIPLatLong db ip = .error (.notFound ip)) ∧
    (∀ loc, getIPLatLong db ip = .ok loc →
      ∃ r, db ip = .ok r ∧ r.hasData = true ∧ loc = ⟨r.lat, r.long⟩) := by
  refine ⟨?_, ?_, ?_⟩
  · intro e he
    simp [getIPLatLong, he]
  · intro r hr hdata
    simp [getIPLatLong, hr, hdata]
  · intro loc hloc
    cases hdb : db ip with
    | error e => simp [getIPLatLong, hdb] at hloc
    | ok r =>
      cases hdata : r.hasData with
      | false => simp [getIPLatLong, hdb, hdata] at hloc
      | true =>
        refine ⟨r, rfl, hdata, ?_⟩
        simp [getIPLatLong, hdb, hdata] at hloc
        exact hloc.symm

/-- Witness for C8 on concrete databases: a record without data yields
NotFound, a failing reader yields the decode error. -/
theorem C8_geo_lookup_errors_witness :
    getIPLatLong exDbNoData "203.0.113.9" = .error (.notFound "203.0.113.9") ∧
    getIPLatLong exDbBad "203.0.113.9" = .error (.decodeFailed "bad record") :=
  ⟨(C8_geo_lookup_errors exDbNoData "203.0.113.9").2.1 ⟨false, 7, 8⟩ rfl rfl,
    (C8_geo_lookup_errors exDbBad "203.0.113.9").1 "bad record" rfl⟩

/-- C5: on a decision-cache miss with a successful client geo-lookup,
if no entry of the domain-location map is (non-nil and) marked alive the
call fails with `allDomainsDown` carrying the size of the map (the count
of domains considered) and leaves the state unchanged, and if at least
one alive entry exists the call returns a domain. Domain names are
assumed nonempty, as produced by DNS resolution of configured domains
(the empty string is the loop's not-found sentinel). -/
theorem C5_all_down_error (st : GeoState)
    (db : String → Except String CityRecord) (ip : String) (ttl : ℤ) (now : ℚ)
    (client : GeoLocation) (h10 : 10 ≤ ttl)
    (hmiss : lookupKey ip st.cache = none)
    (hlok : getIPLatLong db ip = .ok client)
    (hne : ∀ p ∈ st.domainLocations, p.1 ≠ "") :
    ((∀ p ∈ st.domainLocations, aliveEntry p = false) →
      GetDomainWithSmallestGeoDistance st db ip ttl now =
        (.error (.allDomainsDown st.domainLocations.length), st)) ∧
    ((∃ p ∈ st.domainLocations, aliveEntry p = true) →
      ∃ d, (GetDomainWithSmallestGeoDistance st db ip ttl now).1 = .ok d) := by
  constructor
  · intro hdead
    exact getDomain_all_down st db ip ttl now client h10 hmiss hlok hdead
  · intro halive
    obtain ⟨d₁, g₁, h₁, ha₁⟩ := aliveEntry_some halive
    obtain ⟨d, g, _, _, _, _, hok, _, _⟩ :=
      getDomain_ok st db ip ttl now client h10 hmiss hlok hne d₁ g₁ h₁ ha₁
    exact ⟨d, hok⟩

/-- Witness for C5: with no alive domain the call fails naming the two
domains considered; with an alive domain it succeeds. -/
theorem C5_all_down_error_witness :
    ((10 : ℤ) ≤ 60 ∧ lookupKey "198.51.100.7" exStDead.cache = none ∧
      getIPLatLong exDb "198.51.100.7" = .ok ⟨0, 0⟩ ∧
      (∀ p ∈ exStDead.domainLocations, p.1 ≠ "") ∧
      (∀ p ∈ exStDead.domainLocations, aliveEntry p = false) ∧
      GetDomainWithSmallestGeoDistance exStDead exDb "198.51.100.7" 60 0 =
        (.error (.allDomainsDown 2), exStDead)) ∧
    ((∃ p ∈ exSt.domainLocations, aliveEntry p = true) ∧
      ∃ d, (GetDomainWithSmallestGeoDistance exSt exDb "198.51.100.7" 60 0).1 =
        .ok d) := by
  constructor
  · refine ⟨by decide, rfl, rfl, by decide, by decide, ?_⟩
    exact (C5_all_down_error exStDead exDb "198.51.100.7" 60 0 ⟨0, 0⟩
      (by decide) rfl rfl (by decide)).1 (by decide)
  · refine ⟨by decide, ?_⟩
    exact (C5_all_down_error exSt exDb "198.51.100.7" 60 0 ⟨0, 0⟩
      (by decide) rfl rfl (by decide)).2 (by decide)

/-- C1: on a decision-cache miss with a successful client geo-lookup and
at least one alive entry, `GetDomainWithSmallestGeoDistance` returns a
domain that is marked alive in the current domain-location map and whose
`HaversineDistance` to the client location is at most that of every other
alive entry (the strict comparison in the loop makes the first-seen entry
win ties); in particular, when every alive entry carries one single
domain name, that domain is returned regardless of distance. Domain
names are assumed nonempty (the empty string is the loop's not-found
sentinel; map keys come from the configured, DNS-resolvable domains). -/
theorem C1_nearest_alive_domain (st : GeoState)
    (db : String → Except String CityRecord) (ip : String) (ttl : ℤ) (now : ℚ)
    (client : GeoLocation) (h10 : 10 ≤ ttl)
    (hmiss : lookupKey ip st.cache = none)
    (hlok : getIPLatLong db ip = .ok client)
    (hne : ∀ p ∈ st.domainLocations, p.1 ≠ "")
    (halive : ∃ p ∈ st.domainLocations, aliveEntry p = true) :
    ∃ d g, (GetDomainWithSmallestGeoDistance st db ip ttl now).1 = .ok d ∧
      (d, some g) ∈ st.domainLocations ∧ g.isAlive = true ∧
      (∀ d' g', (d', some g') ∈ st.domainLocations → g'.isAlive = true →
        HaversineDistance client.lat client.long g.loc.lat g.loc.long ≤
          HaversineDistance client.lat client.long g'.loc.lat g'.loc.long) ∧
      (∀ d₀ g₀, (d₀, some g₀) ∈ st.domainLocations → g₀.isAlive = true →
        (∀ d' g', (d', some g') ∈ st.domainLocations → g'.isAlive = true →
          d' = d₀) →
        d = d₀) := by
  obtain ⟨d₁, g₁, h₁, ha₁⟩ := aliveEntry_some halive
  obtain ⟨d, g, hm, ha, hmin, huniq, hok, _, _⟩ :=
    getDomain_ok st db ip ttl now client h10 hmiss hlok hne d₁ g₁ h₁ ha₁
  refine ⟨d, g, hok, hm, ha, ?_, huniq⟩
  intro d' g' hm' ha'
  simpa [distTo] using hmin d' g' hm' ha'

/-- Witness for C1 at a concrete state with two alive domains and one
dead one. -/
theorem C1_nearest_alive_domain_witness :
    (10 : ℤ) ≤ 60 ∧ lookupKey "198.51.100.7" exSt.cache = none ∧
    getIPLatLong exDb "198.51.100.7" = .ok ⟨0, 0⟩ ∧
    (∀ p ∈ exSt.domainLocations, p.1 ≠ "") ∧
    (∃ p ∈ exSt.domainLocations, aliveEntry p = true) ∧
    ∃ d g, (GetDomainWithSmallestGeoDistance exSt exDb "198.51.100.7" 60 0).1 =
        .ok d ∧
      (d, some g) ∈ exSt.domainLocations ∧ g.isAlive = true ∧
      (∀ d' g', (d', some g') ∈ exSt.domainLocations → g'.isAlive = true →
        HaversineDistance (0 : ℝ) (0 : ℝ) g.loc.lat g.loc.long ≤
          HaversineDistance (0 : ℝ) (0 : ℝ) g'.loc.lat g'.loc.long) ∧
      (∀ d₀ g₀, (d₀, some g₀) ∈ exSt.domainLocations → g₀.isAlive = true →
        (∀ d' g', (d', some g') ∈ exSt.domainLocations → g'.isAlive = true →
          d' = d₀) →
        d = d₀) :=
  ⟨by decide, rfl, rfl, by decide, by decide,
    C1_nearest_alive_domain exSt exDb "198.51.100.7" 60 0 ⟨0, 0⟩
      (by decide) rfl rfl (by decide) (by decide)⟩

/-- C7: a selection that misses the cache, succeeds and stores its result
(the capacity guard holds) is followed, on the same client address, by a
call that returns the identical domain with the state unchanged — for
every database oracle `db₂`, so no geo-database lookup and no distance
computation can influence the second call (it is a pure cache hit). -/
theorem C7_second_call_hits_cache (st : GeoState)
    (db : String → Except String CityRecord) (ip : String) (ttl : ℤ) (now : ℚ)
    (client : GeoLocation) (h10 : 10 ≤ ttl)
    (hmiss : lookupKey ip st.cache = none)
    (hlok : getIPLatLong db ip = .ok client)
    (hne : ∀ p ∈ st.domainLocations, p.1 ≠ "")
    (halive : ∃ p ∈ st.domainLocations, aliveEntry p = true)
    (hcap : intOfUInt64 st.cacheLen ≤ st.maxCacheSize) :
    ∃ d st', GetDomainWithSmallestGeoDistance st db ip ttl now = (.ok d, st') ∧
      ∀ (db₂ : String → Except String CityRecord) (ttl₂ : ℤ) (now₂ : ℚ),
        10 ≤ ttl₂ →
        GetDomainWithSmallestGeoDistance st' db₂ ip ttl₂ now₂ = (.ok d, st') := by
  obtain ⟨d₁, g₁, h₁, ha₁⟩ := aliveEntry_some halive
  obtain ⟨d, g, _, _, _, _, hok, hins, _⟩ :=
    getDomain_ok st db ip ttl now client h10 hmiss hlok hne d₁ g₁ h₁ ha₁
  refine ⟨d,
    { st with
      cacheLen := (st.cacheLen + 1) % 2 ^ 64,
      cache := (ip, ⟨d, ttl, now⟩) :: st.cache },
    Prod.ext hok (hins hcap), ?_⟩
  intro db₂ ttl₂ now₂ h10₂
  exact getDomain_hit _ db₂ ip ttl₂ now₂ ⟨d, ttl, now⟩ h10₂
    (lookupKey_cons_self ip _ st.cache)

/-- Witness for C7 at a concrete state with spare capacity. -/
theorem C7_second_call_hits_cache_witness :
    (10 : ℤ) ≤ 60 ∧ lookupKey "198.51.100.7" exSt.cache = none ∧
    getIPLatLong exDb "198.51.100.7" = .ok ⟨0, 0⟩ ∧
    (∀ p ∈ exSt.domainLocations, p.1 ≠ "") ∧
    (∃ p ∈ exSt.domainLocations, aliveEntry p = true) ∧
    intOfUInt64 exSt.cacheLen ≤ exSt.maxCacheSize ∧
    ∃ d st',
      GetDomainWithSmallestGeoDistance exSt exDb "198.51.100.7" 60 0 =
        (.ok d, st') ∧
      ∀ (db₂ : String → Except String CityRecord) (ttl₂ : ℤ) (now₂ : ℚ),
        10 ≤ ttl₂ →
        GetDomainWithSmallestGeoDistance st' db₂ "198.51.100.7" ttl₂ now₂ =
          (.ok d, st') :=
  ⟨by decide, rfl, rfl, by decide, by decide, by decide,
    C7_second_call_hits_cache exSt exDb "198.51.100.7" 60 0 ⟨0, 0⟩
      (by decide) rfl rfl (by decide) (by decide) (by decide)⟩

/-- C2 counterexample: the DNS cache does not obey the decision cache's
capacity bound on inserts. With the configured capacity 0 the decision
cache would refuse an insert at entry count 1 (`int(1) <= 0` is false),
yet `DnsResolver.Resolve`, starting from a cache holding 1 entry, still
inserts on a miss: its cache grows to 2 entries. `Resolve` contains no
capacity check at all. -/
theorem C2_counterexample :
    ¬ intOfUInt64 exDns.cache.length ≤ (0 : ℤ) ∧
    exDns.cache.length = 1 ∧
    (Resolve exDns "fresh.example.com" exOracle 600 1).2.cache.length = 2 := by
  refine ⟨by decide, rfl, ?_⟩
  rfl

/-- C2 (amended): the decision cache inserts only when
`int(CacheLen) <= maxCacheSize` — any call that changes the engine state
passed the capacity guard, and a successful selection over capacity still
returns its domain while leaving the state (hence the cache) unchanged —
but the DNS cache has no capacity bound: on a miss with a successful
lookup, `Resolve` always prepends the new entry, whatever the cache's
size. -/
theorem C2_capacity_policy :
    (∀ (st : GeoState) (db : String → Except String CityRecord) (ip : String)
      (ttl : ℤ) (now : ℚ),
      (GetDomainWithSmallestGeoDistance st db ip ttl now).2 ≠ st →
        intOfUInt64 st.cacheLen ≤ st.maxCacheSize) ∧
    (∀ (st : GeoState) (db : String → Except String CityRecord) (ip : String)
      (ttl : ℤ) (now : ℚ) (client : GeoLocation),
      10 ≤ ttl → lookupKey ip st.cache = none →
      getIPLatLong db ip = .ok client →
      (∀ p ∈ st.domainLocations, p.1 ≠ "") →
      (∃ p ∈ st.domainLocations, aliveEntry p = true) →
      ¬ intOfUInt64 st.cacheLen ≤ st.maxCacheSize →
      ∃ d, GetDomainWithSmallestGeoDistance st db ip ttl now = (.ok d, st)) ∧
    (∀ (d : DnsResolver) (hostname : String)
      (oracle : String → Except String (List String)) (ttl : ℤ) (now : ℚ)
      (ip : String) (ips : List String),
      10 ≤ ttl → lookupKey hostname d.cache = none →
      oracle hostname = .ok (ip :: ips) →
      (Resolve d hostname oracle ttl now).2.cache =
        (hostname, ⟨ip :: ips, now, ttl⟩) :: d.cache) := by
  refine ⟨?_, ?_, ?_⟩
  · intro st db ip ttl now hchanged
    rcases getDomain_state st db ip ttl now with hsame | ⟨_, hcap, _, _⟩
    · exact absurd hsame hchanged
    · exact hcap
  · intro st db ip ttl now client h10 hmiss hlok hne halive hcap
    obtain ⟨d₁, g₁, h₁, ha₁⟩ := aliveEntry_some halive
    obtain ⟨d, g, _, _, _, _, hok, _, hskip⟩ :=
      getDomain_ok st db ip ttl now client h10 hmiss hlok hne d₁ g₁ h₁ ha₁
    exact ⟨d, Prod.ext hok (hskip hcap)⟩
  · intro d hostname oracle ttl now ip ips h10 hmiss hres
    rw [resolve_insert d hostname oracle ttl now ip ips h10 hmiss hres]

/-- Witness for the amended C2: over capacity (counter 5, capacity 3) the
selection still answers but the state is untouched; the DNS resolver
inserts unconditionally. -/
theorem C2_capacity_policy_witness :
    (¬ intOfUInt64 exStFull.cacheLen ≤ exStFull.maxCacheSize ∧
      ∃ d, GetDomainWithSmallestGeoDistance exStFull exDb "198.51.100.7" 60 0 =
        (.ok d, exStFull)) ∧
    (Resolve exDns "fresh.example.com" exOracle 600 1).2.cache =
      ("fresh.example.com", ⟨["192.0.2.2"], 1, 600⟩) :: exDns.cache := by
  constructor
  · refine ⟨by decide, ?_⟩
    exact C2_capacity_policy.2.1 exStFull exDb "198.51.100.7" 60 0 ⟨0, 0⟩
      (by decide) rfl rfl (by decide) (by decide) (by decide)
  · exact C2_capacity_policy.2.2 exDns "fresh.example.com" exOracle 600 1
      "192.0.2.2" [] (by decide) rfl rfl

/-- C3: one pass of `updateDomainHealthState` keeps every configured
domain that is present in the current location map mapped to its value,
preserves that value's stored location, and overwrites exactly its
liveness: the domain is marked alive precisely when the health check
returned a status code in `[200, 400)`, and not alive for every status
code outside that range and for every transport error. The hypotheses
state map well-formedness: the configured domain list has no duplicates
and distinct domains hold distinct pointers (as produced by
`updateDomainLocations`, which allocates a fresh value per domain). -/
theorem C3_health_classification (hosting : List String)
    (hr : String → Except Unit ℤ) (st : RegistryState) (d : String) (r : ℕ)
    (cell : DomainGeoLocation) (hnodup : hosting.Nodup) (hd : d ∈ hosting)
    (hlk : lookupKey d st.domainLocations = some r)
    (hdisj : ∀ p ∈ st.domainLocations, p.1 ≠ d → p.2 ≠ r)
    (hcell : st.heap[r]? = some cell) :
    lookupKey d (updateDomainHealthState hosting hr st).domainLocations =
      some r ∧
    (updateDomainHealthState hosting hr st).heap[r]? =
      some ⟨cell.loc, aliveOfHealth (hr d)⟩ ∧
    (aliveOfHealth (hr d) = true ↔ ∃ c, hr d = .ok c ∧ 200 ≤ c ∧ c < 400) := by
  have hdisj' : ∀ d' r', lookupKey d' st.domainLocations = some r' → d' ≠ d →
      r' ≠ r :=
    fun d' r' hl hne => hdisj (d', r') (lookupKey_mem hl) hne
  obtain ⟨hheap, hmap⟩ := healthLoop_main hr st.domainLocations d r cell hlk
    hdisj' hosting st.heap [] hd hnodup rfl hcell
  exact ⟨hmap, hheap, aliveOfHealth_iff (hr d)⟩

/-- Witness for C3 at a concrete registry: `a.example.com` answers 204
(alive), `b.example.com` hits a transport error (dead); locations are
preserved. -/
theorem C3_health_classification_witness :
    ((["a.example.com", "b.example.com"] : List String).Nodup ∧
      "a.example.com" ∈ ["a.example.com", "b.example.com"] ∧
      lookupKey "a.example.com" exReg.domainLocations = some 0 ∧
      (∀ p ∈ exReg.domainLocations, p.1 ≠ "a.example.com" → p.2 ≠ 0) ∧
      exReg.heap[0]? = some ⟨⟨1, 2⟩, false⟩ ∧
      (lookupKey "a.example.com"
          (updateDomainHealthState ["a.example.com", "b.example.com"] exHr
            exReg).domainLocations = some 0 ∧
        (updateDomainHealthState ["a.example.com", "b.example.com"] exHr
            exReg).heap[0]? =
          some ⟨⟨1, 2⟩, aliveOfHealth (exHr "a.example.com")⟩ ∧
        (aliveOfHealth (exHr "a.example.com") = true ↔
          ∃ c, exHr "a.example.com" = .ok c ∧ 200 ≤ c ∧ c < 400))) ∧
    aliveOfHealth (exHr "a.example.com") = true ∧
    aliveOfHealth (exHr "b.example.com") = false :=
  ⟨⟨by decide, by decide, rfl, by decide, rfl,
      C3_health_classification ["a.example.com", "b.example.com"] exHr exReg
        "a.example.com" 0 ⟨⟨1, 2⟩, false⟩ (by decide) (by decide) rfl
        (by decide) rfl⟩,
    by decide, by decide⟩

/-- C4 counterexample: the health refresh mutates in place a
`DomainGeoLocation` value reachable from the pre-refresh map. In
`exRegAlive` the pre-refresh map binds `a.example.com` to the heap cell
at address 0, whose `IsAlive` is `true`; after one
`updateDomainHealthState` pass with a failing health check, that same
cell — still reachable through the old map — carries `IsAlive = false`:
the code executes `location.IsAlive = false` through the shared pointer
before the map swap. -/
theorem C4_counterexample :
    lookupKey "a.example.com" exRegAlive.domainLocations = some 0 ∧
    (exRegAlive.heap[0]?).map (fun c => c.isAlive) = some true ∧
    (((updateDomainHealthState ["a.example.com"] exHrFail exRegAlive).heap[0]?).map
        (fun c => c.isAlive)) = some false := by
  refine ⟨rfl, rfl, ?_⟩
  rfl

/-- C4 (amended): both refreshes compute the entire new map before the
write-locked install, which is a single map swap; the location refresh
allocates only fresh values, leaving every pre-existing heap cell
untouched; the health refresh, however, overwrites the `IsAlive` field of
values shared with the pre-refresh map in place — but never their
coordinates, so a reader of the old map may observe liveness flips but
never a partially updated location. -/
theorem C4_refresh_frame (st : RegistryState) (hosting : List String)
    (hr : String → Except Unit ℤ) (resolve : String → Option GeoLocation) :
    (updateDomainLocations hosting resolve st).heap.take st.heap.length =
      st.heap ∧
    ∀ r : ℕ,
      (((updateDomainHealthState hosting hr st).heap[r]?).map (fun c => c.loc)) =
        ((st.heap[r]?).map (fun c => c.loc)) := by
  constructor
  · obtain ⟨suffix, hs⟩ := locationsLoop_extends resolve hosting st.heap []
    show (locationsLoop resolve hosting st.heap []).1.take st.heap.length = st.heap
    rw [hs, List.take_append_of_le_length (le_refl _), List.take_length]
  · intro r
    exact healthLoop_loc hr st.domainLocations hosting st.heap [] r

/-- C10: starting from the post-constructor state (empty decision cache,
`CacheLen` zero), every sequential interleaving of selection calls and
decision-cache sweep passes preserves the invariant that the `CacheLen`
counter equals the number of entries stored in the decision cache (each
guarded insert increments both by one, each sweep deletion decrements
both by one, through the modulo-`2^64` counter arithmetic). The bound
`maxCacheSize + 1 < 2^63` — satisfied by every realistic configuration —
keeps the uint64 counter away from signed-overflow wrap-around. -/
theorem C10_cache_counter_invariant (m : ℤ)
    (locs : List (String × Option DomainGeoLocation)) (ops : List CacheOp)
    (hm : m + 1 < 2 ^ 63) :
    cacheInv m (applyOps (initState m locs) ops) :=
  cacheInv_applyOps m hm ops (initState m locs) ⟨rfl, rfl, Or.inl rfl⟩

/-- Witness for C10 with capacity 100 and a concrete operation
sequence. -/
theorem C10_cache_counter_invariant_witness :
    (100 : ℤ) + 1 < 2 ^ 63 ∧
    cacheInv 100 (applyOps (initState 100 exSt.domainLocations)
      [CacheOp.select exDb "198.51.100.7" 60 0, CacheOp.sweep 5]) :=
  ⟨by decide,
    C10_cache_counter_invariant 100 exSt.domainLocations
      [CacheOp.select exDb "198.51.100.7" 60 0, CacheOp.sweep 5] (by decide)⟩
